import Mathlib

/-!
Shallow embedding of the zero-locus extraction engine of pySciWS_backup.

The repository compiles a complex-valued sympy expression into a numpy
function (src/numerical.py, get_numpy_func), samples it over a regular 2D
grid and contours the scalar field (src/my_plots.py, plot_zero_contours),
or samples it over a regular 3D grid, extracts the real = 0 and imag = 0
isosurfaces and intersects them (src/space_curve.py, vis_complex_equation).

Numbers are modelled by rationals; complex sample values by pairs of
rationals; Python exceptions by an explicit error type threaded through
Except; VTK / PyVista mesh filters by an abstract backend record, since
those live outside this repository.
-/

/-- Complex sample value: a pair of rational real and imaginary parts,
the model of one numpy complex number. -/
structure Cx where
  re : ℚ
  im : ℚ
deriving DecidableEq, Repr

def Cx.add (a b : Cx) : Cx := ⟨a.re + b.re, a.im + b.im⟩

def Cx.mul (a b : Cx) : Cx := ⟨a.re * b.re - a.im * b.im, a.re * b.im + a.im * b.re⟩

def Cx.neg (a : Cx) : Cx := ⟨-a.re, -a.im⟩

/-- The Python exceptions reachable in the translated code paths. -/
inductive PyErr where
  | ZeroDivisionError
  | ValueError
  | NameError
  | FrozenInstanceError
deriving DecidableEq, Repr

/-- Symbolic expression tree, the model of the sympy `Expr` values the
repository builds and passes to `get_numpy_func` / `plot_zero_contours`.
Symbols are modelled by strings. -/
inductive SymExpr where
  | const : Cx → SymExpr
  | var : String → SymExpr
  | add : SymExpr → SymExpr → SymExpr
  | mul : SymExpr → SymExpr → SymExpr
  | neg : SymExpr → SymExpr
deriving DecidableEq, Repr

/-- Substitute symbol `k` by the constant `v` (sympy `Expr.subs({k: v})`
for a single pair). -/
def SymExpr.subst : SymExpr → String → Cx → SymExpr
  | .const c, _, _ => .const c
  | .var s, k, v => if s = k then .const v else .var s
  | .add a b, k, v => .add (a.subst k v) (b.subst k v)
  | .mul a b, k, v => .mul (a.subst k v) (b.subst k v)
  | .neg a, k, v => .neg (a.subst k v)

/-- sympy `expr.subs(mapping)`: substitute every (symbol, value) pair. -/
def SymExpr.subsList (e : SymExpr) (fp : List (String × Cx)) : SymExpr :=
  fp.foldl (fun acc kv => acc.subst kv.1 kv.2) e

/-- Free symbols of an expression (with multiplicity; only membership is
ever used). -/
def SymExpr.freeSymbols : SymExpr → List String
  | .const _ => []
  | .var s => [s]
  | .add a b => a.freeSymbols ++ b.freeSymbols
  | .mul a b => a.freeSymbols ++ b.freeSymbols
  | .neg a => a.freeSymbols

/-- Evaluation of a lambdified expression body under an environment of
bound names.  A name the environment does not bind is an unbound Python
name inside the generated function, which raises `NameError` when the
function is called — lambdify itself performs no such check. -/
def evalExpr : SymExpr → (String → Option Cx) → Except PyErr Cx
  | .const c, _ => .ok c
  | .var s, env =>
    match env s with
    | some v => .ok v
    | none => .error .NameError
  | .add a b, env => do
    let va ← evalExpr a env
    let vb ← evalExpr b env
    .ok (Cx.add va vb)
  | .mul a b, env => do
    let va ← evalExpr a env
    let vb ← evalExpr b env
    .ok (Cx.mul va vb)
  | .neg a, env => do
    let v ← evalExpr a env
    .ok (Cx.neg v)

/-- `ParamSpace3D` of src/my_dtypes.py: a frozen dataclass with three
axis symbols, their ranges and resolutions, and an optional fixed
parameter dictionary whose dataclass default is `None` (modelled by
`Option`, default `none`). -/
structure ParamSpace3D where
  x : String
  x_range : ℚ × ℚ
  y : String
  y_range : ℚ × ℚ
  z : String
  z_range : ℚ × ℚ
  x_resolution : ℕ := 50
  y_resolution : ℕ := 50
  z_resolution : ℕ := 50
  fixed_param : Option (List (String × Cx)) := none
deriving DecidableEq, Repr

/-- Construction of a `ParamSpace3D` giving only the six positional
fields, as in `ParamSpace3D(x, xr, y, yr, z, zr)`: the resolutions and
`fixed_param` take their dataclass defaults. -/
def ParamSpace3D.mkDefault (x : String) (xr : ℚ × ℚ) (y : String) (yr : ℚ × ℚ)
    (z : String) (zr : ℚ × ℚ) : ParamSpace3D :=
  { x := x, x_range := xr, y := y, y_range := yr, z := z, z_range := zr }

/-- The fields of a `ParamSpace3D` an attribute assignment could target. -/
inductive PSField where
  | x | xRange | y | yRange | z | zRange | xResolution | yResolution | zResolution | fixedParam
deriving DecidableEq, Repr

/-- `dataclass(frozen=True)` semantics: the generated attribute setter
raises `FrozenInstanceError` unconditionally, for every field. -/
def ParamSpace3D.setattr (_ps : ParamSpace3D) (_f : PSField) :
    Except PyErr ParamSpace3D :=
  .error .FrozenInstanceError

/-- src/numerical.py, `get_numpy_func`: substitute the fixed parameters
(`expr.subs(param_space.fixed_param)`; with the dataclass default `None`
sympy raises `ValueError`, since `None` is neither a mapping nor an
iterable of pairs), then lambdify over the axis symbol list
`[ps.x, ps.y, ps.z]`.  No check for leftover or conflicting symbols is
performed anywhere. -/
def get_numpy_func (expr : SymExpr) (ps : ParamSpace3D) :
    Except PyErr (Cx → Cx → Cx → Except PyErr Cx) :=
  match ps.fixed_param with
  | none => .error .ValueError
  | some fp =>
    let expr_substituted := SymExpr.subsList expr fp
    let params : List String := [ps.x, ps.y, ps.z]
    .ok (fun a b c =>
      evalExpr expr_substituted (fun s => List.lookup s (params.zip [a, b, c])))

/-- `np.linspace(a, b, n)`: `n` evenly spaced samples inclusive of both
endpoints; `n = 0` gives an empty array and `n = 1` gives `[a]`, with no
error in either case. -/
def np_linspace (a b : ℚ) (n : ℕ) : List ℚ :=
  if n = 0 then []
  else if n = 1 then [a]
  else (List.range n).map (fun i : ℕ => a + (i : ℚ) * ((b - a) / ((n : ℚ) - 1)))

/-- Concatenation of a list of lists (row-major traversal). -/
def concatAll : List (List ℚ) → List ℚ
  | [] => []
  | l :: ls => l ++ concatAll ls

/-- `flatten(order="F")` of a 3D array of shape `(nx, ny, nz)` held as an
index function: Fortran order lists the first index fastest, so the entry
at flat position `i + nx*j + nx*ny*k` is `A i j k`. -/
def flattenF (nx ny nz : ℕ) (A : ℕ → ℕ → ℕ → ℚ) : List ℚ :=
  concatAll ((List.range nz).map (fun k =>
    concatAll ((List.range ny).map (fun j =>
      (List.range nx).map (fun i => A i j k)))))

/-- Python `a / b` on an integer divisor: raises `ZeroDivisionError` when
the divisor is zero. -/
def pydiv (a : ℚ) (b : ℤ) : Except PyErr ℚ :=
  if b = 0 then .error .ZeroDivisionError else .ok (a / (b : ℚ))

/-- A PyVista / VTK triangulated mesh, kept abstract: points plus
connectivity. -/
structure Mesh where
  points : List (ℚ × ℚ × ℚ)
  cells : List (List ℕ)
deriving DecidableEq, Repr

def Mesh.empty : Mesh := ⟨[], []⟩

/-- `pv.ImageData` after the extractor has set its fields: dimensions,
origin, per-axis spacing, and the named flattened scalar fields. -/
structure ImageData where
  dimensions : ℕ × ℕ × ℕ
  origin : ℚ × ℚ × ℚ
  spacing : ℚ × ℚ × ℚ
  scalars : List (String × List ℚ)
deriving DecidableEq, Repr

/-- The PyVista operations `vis_complex_equation` delegates to.  They are
external library code, so they are a parameter of the embedding: a
`contour` filter (level-0 isosurface of a named scalar field) and the
`PolyData.intersection` filter (intersection curve plus the two input
meshes, optionally split). -/
structure VtkBackend where
  contour : ImageData → String → Mesh
  intersection : Mesh → Mesh → Bool → Bool → Mesh × Mesh × Mesh

/-- The lattice point value of the ij-indexed coordinate mesh:
`np.meshgrid(x, y, z, indexing="ij")` makes `coord_x_mat[i,j,k] = x[i]`,
`coord_y_mat[i,j,k] = y[j]`, `coord_z_mat[i,j,k] = z[k]`, so the sampled
array is `values[i,j,k] = numpy_func(x[i], y[j], z[k])`. -/
def vis_point_values (numpy_func : ℚ → ℚ → ℚ → Cx) (ps : ParamSpace3D) :
    ℕ → ℕ → ℕ → Cx := fun i j k =>
  numpy_func
    ((np_linspace ps.x_range.1 ps.x_range.2 ps.x_resolution).getD i 0)
    ((np_linspace ps.y_range.1 ps.y_range.2 ps.y_resolution).getD j 0)
    ((np_linspace ps.z_range.1 ps.z_range.2 ps.z_resolution).getD k 0)

/-- `grid["real"] = real_part.flatten(order="F")` of src/space_curve.py. -/
def vis_real_field (numpy_func : ℚ → ℚ → ℚ → Cx) (ps : ParamSpace3D) : List ℚ :=
  flattenF ps.x_resolution ps.y_resolution ps.z_resolution
    (fun i j k => (vis_point_values numpy_func ps i j k).re)

/-- `grid["imag"] = imag_part.flatten(order="F")` of src/space_curve.py. -/
def vis_imag_field (numpy_func : ℚ → ℚ → ℚ → Cx) (ps : ParamSpace3D) : List ℚ :=
  flattenF ps.x_resolution ps.y_resolution ps.z_resolution
    (fun i j k => (vis_point_values numpy_func ps i j k).im)

/-- The grid-building half of `vis_complex_equation` (src/space_curve.py,
up to the two scalar-field assignments): linspace axes, ij meshgrid,
evaluation of `numpy_func` over the mesh, real/imag split, then the
`pv.ImageData` with dimensions, origin, per-axis spacing
`len / (resolution - 1)` (an unguarded Python division: resolution 1
raises `ZeroDivisionError` here, after the sampling above), and the two
Fortran-flattened scalar fields. -/
def vis_build_grid (numpy_func : ℚ → ℚ → ℚ → Cx) (ps : ParamSpace3D) :
    Except PyErr ImageData := do
  let x_len : ℚ := ps.x_range.2 - ps.x_range.1
  let y_len : ℚ := ps.y_range.2 - ps.y_range.1
  let z_len : ℚ := ps.z_range.2 - ps.z_range.1
  let sx ← pydiv x_len ((ps.x_resolution : ℤ) - 1)
  let sy ← pydiv y_len ((ps.y_resolution : ℤ) - 1)
  let sz ← pydiv z_len ((ps.z_resolution : ℤ) - 1)
  .ok
    { dimensions := (ps.x_resolution, ps.y_resolution, ps.z_resolution)
      origin := (ps.x_range.1, ps.y_range.1, ps.z_range.1)
      spacing := (sx, sy, sz)
      scalars := [("real", vis_real_field numpy_func ps),
                  ("imag", vis_imag_field numpy_func ps)] }

/-- src/space_curve.py, `vis_complex_equation` with `plot=False` (the
`plot=True` branch only renders through the external plotter and returns
the same triple): build the sampled grid, contour the `real` and `imag`
fields at level 0, intersect the two isosurfaces with
`split_first=False, split_second=False`, and return
`(curve, first_face, second_face)`. -/
def vis_complex_equation (bk : VtkBackend) (numpy_func : ℚ → ℚ → ℚ → Cx)
    (ps : ParamSpace3D) : Except PyErr (Mesh × Mesh × Mesh) := do
  let grid ← vis_build_grid numpy_func ps
  let real_contour := bk.contour grid "real"
  let imag_contour := bk.contour grid "imag"
  let r := bk.intersection real_contour imag_contour false false
  .ok (r.1, r.2.1, r.2.2)

/-- State-threaded view of the compiler: the translated body contains no
assignment to any attribute of `param_space` and no mutation of its
`fixed_param` dictionary (`expr.subs` only reads it), so the parameter
space after the call is the one passed in. -/
def get_numpy_func_st (expr : SymExpr) (ps : ParamSpace3D) :
    Except PyErr (Cx → Cx → Cx → Except PyErr Cx) × ParamSpace3D :=
  (get_numpy_func expr ps, ps)

/-- State-threaded view of the volumetric extractor: its body only reads
`param_space` fields, so the parameter space after the call is the one
passed in. -/
def vis_complex_equation_st (bk : VtkBackend) (numpy_func : ℚ → ℚ → ℚ → Cx)
    (ps : ParamSpace3D) : Except PyErr (Mesh × Mesh × Mesh) × ParamSpace3D :=
  (vis_complex_equation bk numpy_func ps, ps)

/-- Does the lambdified computation carry complex dtype?  With this
expression language (constants, variables, +, *, unary minus) over real
grid coordinates, numpy produces a complex-dtype result exactly when a
complex constant occurs in the expression. -/
def SymExpr.hasComplexConst : SymExpr → Bool
  | .const c => decide (c.im ≠ 0)
  | .var _ => false
  | .add a b => a.hasComplexConst || b.hasComplexConst
  | .mul a b => a.hasComplexConst || b.hasComplexConst
  | .neg a => a.hasComplexConst

/-- `np.iscomplexobj(Z)` for `Z = func_numeric(X, Y, *fixed_values)`:
the dtype is complex when the expression holds a complex constant or a
complex scalar was passed among the fixed values. -/
def np_iscomplexobj (func : SymExpr) (fixed_values : List Cx) : Bool :=
  func.hasComplexConst || fixed_values.any (fun v => decide (v.im ≠ 0))

/-- The diagnostic printed by `plot_zero_contours` when the sampled field
is complex. -/
def cmplxWarning : String := "警告：函数返回复数值，仅绘制实部"

/-- The parameter-collection loop of `plot_zero_contours`
(src/my_plots.py): `all_params = [param_x, param_y] + list(fixed_params)`;
every entry not among the two axis symbols is looked up in `fixed_params`
(raising `ValueError` when absent — unreachable, since the entries come
from `fixed_params` itself) and appended to `lambda_params` and
`fixed_values`. -/
def bp_step (param_x param_y : String) (fixed_params : List (String × Cx))
    (acc : List String × List Cx) (param : String) :
    Except PyErr (List String × List Cx) :=
  if param = param_x ∨ param = param_y then Except.ok acc
  else
    match List.lookup param fixed_params with
    | none => Except.error PyErr.ValueError
    | some v => Except.ok (acc.1 ++ [param], acc.2 ++ [v])

def build_params (param_x param_y : String) (fixed_params : List (String × Cx)) :
    Except PyErr (List String × List Cx) :=
  let all_params := [param_x, param_y] ++ fixed_params.map (fun kv => kv.1)
  all_params.foldlM (bp_step param_x param_y fixed_params) ([param_x, param_y], [])

/-- The sampling half of `plot_zero_contours`: build the lambdify
parameter order, the 2D meshgrid (default "xy" indexing:
`X[r][c] = x[c]`, `Y[r][c] = y[r]`), and evaluate
`func_numeric(X, Y, *fixed_values)` elementwise.  Returns the parameter
lists together with the sampled matrix `Z`. -/
def plot_sample (func : SymExpr) (param_x param_y : String)
    (x_range y_range : ℚ × ℚ) (fixed_params : List (String × Cx))
    (resolution : ℕ) :
    Except PyErr (List String × List Cx × List (List Cx)) := do
  let pr ← build_params param_x param_y fixed_params
  let lambda_params := pr.1
  let fixed_values := pr.2
  let x := np_linspace x_range.1 x_range.2 resolution
  let y := np_linspace y_range.1 y_range.2 resolution
  let Z ← (List.range y.length).mapM (fun r =>
    (List.range x.length).mapM (fun c =>
      evalExpr func (fun s =>
        List.lookup s (lambda_params.zip
          ([⟨x.getD c 0, 0⟩, ⟨y.getD r 0, 0⟩] ++ fixed_values)))))
  .ok (lambda_params, fixed_values, Z)

/-- Result of the planar extractor relevant to its contract: the emitted
diagnostics and the scalar matrix handed to the contour filter. -/
structure PlanarResult where
  warnings : List String
  field : List (List Cx)
deriving DecidableEq, Repr

/-- src/my_plots.py, `plot_zero_contours` (styling and the matplotlib
contour call, which are rendering-collaborator concerns, omitted): sample
the grid, then — if the result has complex dtype — print the diagnostic
and contour `np.real(Z)`, otherwise contour `Z` unchanged. -/
def plot_zero_contours (func : SymExpr) (param_x param_y : String)
    (x_range y_range : ℚ × ℚ) (fixed_params : List (String × Cx))
    (resolution : ℕ) : Except PyErr PlanarResult := do
  let s ← plot_sample func param_x param_y x_range y_range fixed_params resolution
  let Z := s.2.2
  if np_iscomplexobj func s.2.1 then
    .ok { warnings := [cmplxWarning],
          field := Z.map (fun row => row.map (fun v => ⟨v.re, 0⟩)) }
  else
    .ok { warnings := [], field := Z }

theorem concatAll_length_uniform (L : ℕ) (ls : List (List ℚ))
    (h : ∀ l ∈ ls, l.length = L) : (concatAll ls).length = ls.length * L := by
  induction ls with
  | nil => simp [concatAll]
  | cons a tl ih =>
    simp only [concatAll, List.length_append, List.length_cons]
    rw [h a (by simp), ih (fun l hl => h l (by simp [hl]))]
    ring

theorem concatAll_getElem_uniform (L : ℕ) (ls : List (List ℚ))
    (h : ∀ l ∈ ls, l.length = L) (q r : ℕ) (hq : q < ls.length) (hr : r < L) :
    (concatAll ls)[q * L + r]? = (ls.getD q [])[r]? := by
  induction ls generalizing q with
  | nil => simp at hq
  | cons a tl ih =>
    cases q with
    | zero =>
      simp only [concatAll, Nat.zero_mul, Nat.zero_add, List.getD_cons_zero]
      rw [List.getElem?_append_left]
      rw [h a (by simp)]
      exact hr
    | succ q' =>
      have ha : a.length = L := h a (by simp)
      have hidx : (q' + 1) * L + r = a.length + (q' * L + r) := by rw [ha]; ring
      show (a ++ concatAll tl)[(q' + 1) * L + r]? = _
      rw [hidx, List.getElem?_append_right (by omega)]
      simp only [Nat.add_sub_cancel_left, List.getD_cons_succ]
      exact ih (fun l hl => h l (by simp [hl])) q' (by simpa using hq)

theorem getD_map_range {α : Type} (f : ℕ → α) (n q : ℕ) (hq : q < n) (d : α) :
    ((List.range n).map f).getD q d = f q := by
  rw [List.getD_eq_getElem?_getD, List.getElem?_map, List.getElem?_range hq]
  rfl

/-- The key indexing fact behind the 3D pipeline: Fortran-order
flattening of an `(nx, ny, nz)` array places entry `(i, j, k)` at flat
position `i + nx*j + nx*ny*k`, the VTK x-fastest point id. -/
theorem flattenF_getElem (nx ny nz : ℕ) (A : ℕ → ℕ → ℕ → ℚ) (i j k : ℕ)
    (hi : i < nx) (hj : j < ny) (hk : k < nz) :
    (flattenF nx ny nz A)[i + nx * j + nx * ny * k]? = some (A i j k) := by
  have hr : j * nx + i < ny * nx := by
    have h1 : j * nx + i < (j + 1) * nx := by
      rw [Nat.succ_mul]
      exact Nat.add_lt_add_left hi (j * nx)
    exact lt_of_lt_of_le h1 (Nat.mul_le_mul_right nx hj)
  have hidx : i + nx * j + nx * ny * k = k * (ny * nx) + (j * nx + i) := by ring
  rw [flattenF, hidx]
  rw [concatAll_getElem_uniform (ny * nx) _
    (by
      intro l hl
      obtain ⟨m, _, rfl⟩ := List.mem_map.mp hl
      rw [concatAll_length_uniform nx _ (by
        intro l2 hl2
        obtain ⟨m2, _, rfl⟩ := List.mem_map.mp hl2
        simp)]
      simp)
    k (j * nx + i) (by simpa using hk) hr]
  rw [getD_map_range _ nz k hk]
  rw [concatAll_getElem_uniform nx _
    (by
      intro l2 hl2
      obtain ⟨m2, _, rfl⟩ := List.mem_map.mp hl2
      simp)
    j i (by simpa using hj) hi]
  rw [getD_map_range _ ny j hj]
  rw [List.getElem?_map, List.getElem?_range hi]
  rfl

/-- `np.linspace` sample `i` (for `n ≥ 2`, `i < n`) is the `i`-th evenly
spaced coordinate `a + i * (b - a)/(n - 1)`. -/
theorem np_linspace_getD (a b : ℚ) (n i : ℕ) (h2 : 2 ≤ n) (hi : i < n) :
    (np_linspace a b n).getD i 0 = a + (i : ℚ) * ((b - a) / ((n : ℚ) - 1)) := by
  rw [np_linspace, if_neg (by omega), if_neg (by omega)]
  exact getD_map_range _ n i hi 0

/-- With every axis resolution at least 2, the spacing divisions succeed
and `vis_build_grid` returns the fully determined grid. -/
theorem vis_build_grid_ok (f : ℚ → ℚ → ℚ → Cx) (ps : ParamSpace3D)
    (h2x : 2 ≤ ps.x_resolution) (h2y : 2 ≤ ps.y_resolution)
    (h2z : 2 ≤ ps.z_resolution) :
    vis_build_grid f ps = Except.ok
      { dimensions := (ps.x_resolution, ps.y_resolution, ps.z_resolution)
        origin := (ps.x_range.1, ps.y_range.1, ps.z_range.1)
        spacing :=
          ((ps.x_range.2 - ps.x_range.1) / (((ps.x_resolution : ℤ) - 1 : ℤ) : ℚ),
           (ps.y_range.2 - ps.y_range.1) / (((ps.y_resolution : ℤ) - 1 : ℤ) : ℚ),
           (ps.z_range.2 - ps.z_range.1) / (((ps.z_resolution : ℤ) - 1 : ℤ) : ℚ))
        scalars := [("real", vis_real_field f ps),
                    ("imag", vis_imag_field f ps)] } := by
  have hx : ((ps.x_resolution : ℤ) - 1) ≠ 0 := by omega
  have hy : ((ps.y_resolution : ℤ) - 1) ≠ 0 := by omega
  have hz : ((ps.z_resolution : ℤ) - 1) ≠ 0 := by omega
  rw [vis_build_grid]
  simp only [pydiv, if_neg hx, if_neg hy, if_neg hz]
  rfl

/-- C1: for every `ParamSpace3D` whose axis resolutions are all at least
2 and every compiled three-axis function `f`, the volumetric extractor
attaches its scalar fields in the traversal order the structured grid
expects: the Fortran-flattened `real` and `imag` arrays hold, at the
x-fastest VTK point id `i + nx*j + nx*ny*k` of lattice point `(i,j,k)`,
exactly the real and imaginary parts of `f x_i y_j z_k`, where `x_i`,
`y_j`, `z_k` are the evenly spaced linspace coordinates of the three
axes — for arbitrary (not only cubic) grid dimensions. -/
theorem vis_field_traversal_order (f : ℚ → ℚ → ℚ → Cx) (ps : ParamSpace3D)
    (h2x : 2 ≤ ps.x_resolution) (h2y : 2 ≤ ps.y_resolution)
    (h2z : 2 ≤ ps.z_resolution) (i j k : ℕ) (hi : i < ps.x_resolution)
    (hj : j < ps.y_resolution) (hk : k < ps.z_resolution) :
    ∃ g : ImageData, vis_build_grid f ps = Except.ok g ∧
      ∃ fr fi : List ℚ,
        g.scalars = [("real", fr), ("imag", fi)] ∧
        fr[i + ps.x_resolution * j + ps.x_resolution * ps.y_resolution * k]? =
          some ((f
            (ps.x_range.1 + (i : ℚ) *
              ((ps.x_range.2 - ps.x_range.1) / ((ps.x_resolution : ℚ) - 1)))
            (ps.y_range.1 + (j : ℚ) *
              ((ps.y_range.2 - ps.y_range.1) / ((ps.y_resolution : ℚ) - 1)))
            (ps.z_range.1 + (k : ℚ) *
              ((ps.z_range.2 - ps.z_range.1) / ((ps.z_resolution : ℚ) - 1)))).re) ∧
        fi[i + ps.x_resolution * j + ps.x_resolution * ps.y_resolution * k]? =
          some ((f
            (ps.x_range.1 + (i : ℚ) *
              ((ps.x_range.2 - ps.x_range.1) / ((ps.x_resolution : ℚ) - 1)))
            (ps.y_range.1 + (j : ℚ) *
              ((ps.y_range.2 - ps.y_range.1) / ((ps.y_resolution : ℚ) - 1)))
            (ps.z_range.1 + (k : ℚ) *
              ((ps.z_range.2 - ps.z_range.1) / ((ps.z_resolution : ℚ) - 1)))).im) := by
  refine ⟨_, vis_build_grid_ok f ps h2x h2y h2z,
    vis_real_field f ps, vis_imag_field f ps, rfl, ?_, ?_⟩
  · rw [vis_real_field, flattenF_getElem _ _ _ _ i j k hi hj hk]
    rw [vis_point_values, np_linspace_getD _ _ _ _ h2x hi,
      np_linspace_getD _ _ _ _ h2y hj, np_linspace_getD _ _ _ _ h2z hk]
  · rw [vis_imag_field, flattenF_getElem _ _ _ _ i j k hi hj hk]
    rw [vis_point_values, np_linspace_getD _ _ _ _ h2x hi,
      np_linspace_getD _ _ _ _ h2y hj, np_linspace_getD _ _ _ _ h2z hk]

/-- A concrete three-axis function for witnesses. -/
def wf3 : ℚ → ℚ → ℚ → Cx := fun a b c => ⟨a + 2 * b, c⟩

/-- A concrete non-cubic parameter space for witnesses. -/
def wps : ParamSpace3D :=
  { x := "a", x_range := (0, 1), y := "b", y_range := (0, 2),
    z := "c", z_range := (5, 7), x_resolution := 2, y_resolution := 3,
    z_resolution := 2, fixed_param := some [] }

/-- Witness for C1 at the non-cubic grid `2 × 3 × 2`, lattice point
`(1, 2, 1)`. -/
theorem vis_field_traversal_order_witness :
    ∃ g : ImageData, vis_build_grid wf3 wps = Except.ok g ∧
      ∃ fr fi : List ℚ,
        g.scalars = [("real", fr), ("imag", fi)] ∧
        fr[1 + wps.x_resolution * 2 + wps.x_resolution * wps.y_resolution * 1]? =
          some ((wf3
            (wps.x_range.1 + ((1 : ℕ) : ℚ) *
              ((wps.x_range.2 - wps.x_range.1) / ((wps.x_resolution : ℚ) - 1)))
            (wps.y_range.1 + ((2 : ℕ) : ℚ) *
              ((wps.y_range.2 - wps.y_range.1) / ((wps.y_resolution : ℚ) - 1)))
            (wps.z_range.1 + ((1 : ℕ) : ℚ) *
              ((wps.z_range.2 - wps.z_range.1) / ((wps.z_resolution : ℚ) - 1)))).re) ∧
        fi[1 + wps.x_resolution * 2 + wps.x_resolution * wps.y_resolution * 1]? =
          some ((wf3
            (wps.x_range.1 + ((1 : ℕ) : ℚ) *
              ((wps.x_range.2 - wps.x_range.1) / ((wps.x_resolution : ℚ) - 1)))
            (wps.y_range.1 + ((2 : ℕ) : ℚ) *
              ((wps.y_range.2 - wps.y_range.1) / ((wps.y_resolution : ℚ) - 1)))
            (wps.z_range.1 + ((1 : ℕ) : ℚ) *
              ((wps.z_range.2 - wps.z_range.1) / ((wps.z_resolution : ℚ) - 1)))).im) :=
  vis_field_traversal_order wf3 wps (by decide) (by decide) (by decide)
    1 2 1 (by decide) (by decide) (by decide)

/-- Once the grid is built, the extractor is the literal composition of
the two contour calls and the intersection call. -/
theorem vis_complex_equation_eq (bk : VtkBackend) (f : ℚ → ℚ → ℚ → Cx)
    (ps : ParamSpace3D) (g : ImageData)
    (hg : vis_build_grid f ps = Except.ok g) :
    vis_complex_equation bk f ps = Except.ok
      ((bk.intersection (bk.contour g "real") (bk.contour g "imag") false false).1,
       (bk.intersection (bk.contour g "real") (bk.contour g "imag") false false).2.1,
       (bk.intersection (bk.contour g "real") (bk.contour g "imag") false false).2.2) := by
  rw [vis_complex_equation, hg]
  rfl

/-- C2: for every compiled three-axis function and every parameter space
whose grid builds, the volumetric extractor returns the triple
`(curve, real=0 surface, imag=0 surface)`: the first component is the
geometric intersection of the two level-0 isosurfaces (the
`PolyData.intersection` filter with both split flags off returns the
intersection curve and the two unmodified inputs), and both source
surfaces are returned to the caller. -/
theorem vis_returns_curve_and_both_surfaces (bk : VtkBackend)
    (inter : Mesh → Mesh → Mesh)
    (hbk : ∀ a b : Mesh, bk.intersection a b false false = (inter a b, a, b))
    (f : ℚ → ℚ → ℚ → Cx) (ps : ParamSpace3D) (g : ImageData)
    (hg : vis_build_grid f ps = Except.ok g) :
    vis_complex_equation bk f ps = Except.ok
      (inter (bk.contour g "real") (bk.contour g "imag"),
       bk.contour g "real", bk.contour g "imag") := by
  rw [vis_complex_equation_eq bk f ps g hg, hbk]

/-- Mesh concatenation, the concrete intersection result used in the C2
witness backend. -/
def wcat (a b : Mesh) : Mesh := ⟨a.points ++ b.points, a.cells ++ b.cells⟩

/-- Witness backend for C2: distinct contours per field, intersection
returning the curve and the two unsplit inputs. -/
def wbk2 : VtkBackend :=
  { contour := fun _ s => if s = "real" then ⟨[(0, 0, 0)], [[0]]⟩ else ⟨[(1, 1, 1)], [[0]]⟩
    intersection := fun a b _ _ => (wcat a b, a, b) }

/-- Witness for C2 at a concrete backend, function and space. -/
theorem vis_returns_curve_and_both_surfaces_witness :
    ∃ g : ImageData, vis_build_grid wf3 wps = Except.ok g ∧
      vis_complex_equation wbk2 wf3 wps = Except.ok
        (wcat (wbk2.contour g "real") (wbk2.contour g "imag"),
         wbk2.contour g "real", wbk2.contour g "imag") :=
  ⟨_, rfl, vis_returns_curve_and_both_surfaces wbk2 wcat (fun _ _ => rfl)
    wf3 wps _ rfl⟩

/-- A trivial backend: empty contours, intersection keeping both inputs. -/
def wbk : VtkBackend :=
  { contour := fun _ _ => Mesh.empty
    intersection := fun a b _ _ => (Mesh.empty, a, b) }

/-- A parameter space with `x_resolution = 1`, reaching the unguarded
spacing division of src/space_curve.py. -/
def wps1 : ParamSpace3D :=
  { x := "a", x_range := (0, 1), y := "b", y_range := (0, 2),
    z := "c", z_range := (5, 7), x_resolution := 1, y_resolution := 2,
    z_resolution := 2, fixed_param := some [] }

/-- C3 evidence: with `x_resolution = 1` the `ParamSpace3D` constructs
without any validation, the scalar field is still sampled (the flattened
real field of the 1 × 2 × 2 lattice is nonempty), and the extractor then
raises a bare `ZeroDivisionError` at `x_len / (x_resolution - 1)` — there
is no `InvalidDomain` guard anywhere, contradicting the specified
reject-before-sampling contract. -/
theorem vis_resolution_one_zero_division :
    vis_complex_equation wbk wf3 wps1 = Except.error PyErr.ZeroDivisionError ∧
    vis_real_field wf3 wps1 = [0, 4, 0, 4] := by
  refine ⟨rfl, ?_⟩
  norm_num [vis_real_field, flattenF, concatAll, vis_point_values, np_linspace,
    wf3, wps1, List.range_succ]

/-- Every entry of the Fortran-flattened field is a sample of the array. -/
theorem mem_concatAll {v : ℚ} {ls : List (List ℚ)} :
    v ∈ concatAll ls ↔ ∃ l ∈ ls, v ∈ l := by
  induction ls with
  | nil => simp [concatAll]
  | cons a tl ih => simp [concatAll, ih]

theorem mem_flattenF {v : ℚ} {nx ny nz : ℕ} {A : ℕ → ℕ → ℕ → ℚ}
    (h : v ∈ flattenF nx ny nz A) : ∃ i j k, v = A i j k := by
  rw [flattenF, mem_concatAll] at h
  obtain ⟨l, hl, hv⟩ := h
  obtain ⟨k, _, rfl⟩ := List.mem_map.mp hl
  rw [mem_concatAll] at hv
  obtain ⟨l2, hl2, hv2⟩ := hv
  obtain ⟨j, _, rfl⟩ := List.mem_map.mp hl2
  obtain ⟨i, _, rfl⟩ := List.mem_map.mp hv2
  exact ⟨i, j, k, rfl⟩

/-- C7: when the real part of the compiled function never changes sign
inside the box (here: is strictly positive everywhere), the volumetric
extractor still returns normally: the real isosurface is the empty mesh
(a level-0 contour of a strictly positive field is empty), the
intersection curve is empty, and this is delivered as an ordinary `ok`
result, never an error. -/
theorem vis_sign_constant_field_ok (bk : VtkBackend) (f : ℚ → ℚ → ℚ → Cx)
    (ps : ParamSpace3D) (h2x : 2 ≤ ps.x_resolution)
    (h2y : 2 ≤ ps.y_resolution) (h2z : 2 ≤ ps.z_resolution)
    (hpos : ∀ x y z : ℚ, 0 < (f x y z).re)
    (hcontour : ∀ g : ImageData, ∀ fr : List ℚ,
      List.lookup "real" g.scalars = some fr → (∀ v ∈ fr, 0 < v) →
      bk.contour g "real" = Mesh.empty)
    (hinter : ∀ m : Mesh,
      bk.intersection Mesh.empty m false false = (Mesh.empty, Mesh.empty, m)) :
    ∃ m3 : Mesh,
      vis_complex_equation bk f ps = Except.ok (Mesh.empty, Mesh.empty, m3) := by
  have hg := vis_build_grid_ok f ps h2x h2y h2z
  have hfield : ∀ v ∈ vis_real_field f ps, 0 < v := by
    intro v hv
    obtain ⟨i, j, k, rfl⟩ := mem_flattenF hv
    exact hpos _ _ _
  have hre : bk.contour
      { dimensions := (ps.x_resolution, ps.y_resolution, ps.z_resolution)
        origin := (ps.x_range.1, ps.y_range.1, ps.z_range.1)
        spacing :=
          ((ps.x_range.2 - ps.x_range.1) / (((ps.x_resolution : ℤ) - 1 : ℤ) : ℚ),
           (ps.y_range.2 - ps.y_range.1) / (((ps.y_resolution : ℤ) - 1 : ℤ) : ℚ),
           (ps.z_range.2 - ps.z_range.1) / (((ps.z_resolution : ℤ) - 1 : ℤ) : ℚ))
        scalars := [("real", vis_real_field f ps),
                    ("imag", vis_imag_field f ps)] } "real" = Mesh.empty := by
    apply hcontour _ (vis_real_field f ps) _ hfield
    simp [List.lookup]
  rw [vis_complex_equation_eq bk f ps _ hg, hre, hinter]
  exact ⟨_, rfl⟩

/-- Witness function for C7: real part strictly positive everywhere. -/
def wf7 : ℚ → ℚ → ℚ → Cx := fun _ _ z => ⟨1, z⟩

/-- Witness for C7: a sign-constant real part yields an ordinary result
with empty meshes. -/
theorem vis_sign_constant_field_ok_witness :
    ∃ m3 : Mesh,
      vis_complex_equation wbk wf7 wps = Except.ok (Mesh.empty, Mesh.empty, m3) :=
  vis_sign_constant_field_ok wbk wf7 wps (by decide) (by decide) (by decide)
    (fun _ _ _ => by norm_num [wf7]) (fun _ _ _ _ => rfl) (fun _ => rfl)

/-- C8: the volumetric extraction pipeline reads no hidden mutable
state — it is a pure function of the backend, the compiled function and
the parameter space — so two calls with identical inputs return identical
results, in particular identical mesh connectivity and vertex lists for
the curve and both isosurfaces. -/
theorem vis_deterministic (bk : VtkBackend) (f : ℚ → ℚ → ℚ → Cx)
    (ps : ParamSpace3D) (r1 r2 : Except PyErr (Mesh × Mesh × Mesh))
    (h1 : vis_complex_equation bk f ps = r1)
    (h2 : vis_complex_equation bk f ps = r2) : r1 = r2 := by
  rw [← h1, ← h2]

/-- Witness for C8 at concrete inputs. -/
theorem vis_deterministic_witness :
    vis_complex_equation wbk wf3 wps = vis_complex_equation wbk wf3 wps :=
  vis_deterministic wbk wf3 wps _ _ rfl rfl

/-- C9: `ParamSpace3D` is a frozen dataclass — every attribute
assignment raises `FrozenInstanceError` — and neither the compiler nor
the volumetric extractor writes any of its fields or its fixed-parameter
mapping (their bodies only read them; the planar extractor does not even
receive the object), so the same instance can be passed to the compiler
and the extractors in any order. -/
theorem paramspace_immutable :
    (∀ (ps : ParamSpace3D) (fld : PSField),
        ParamSpace3D.setattr ps fld = Except.error PyErr.FrozenInstanceError) ∧
    (∀ (e : SymExpr) (ps : ParamSpace3D), (get_numpy_func_st e ps).2 = ps) ∧
    (∀ (bk : VtkBackend) (f : ℚ → ℚ → ℚ → Cx) (ps : ParamSpace3D),
        (vis_complex_equation_st bk f ps).2 = ps) :=
  ⟨fun _ _ => rfl, fun _ _ => rfl, fun _ _ _ => rfl⟩

/-- C10: a `ParamSpace3D` constructed without an explicit `fixed_param`
argument defaults that field to `None` (not to an empty mapping), and
compiling any expression against such a space — even one whose free
symbols are exactly the axis symbols — raises during
`expr.subs(None)`; passing an explicit (possibly empty) mapping makes
compilation succeed. -/
theorem fixed_param_default_none (xs : String) (xr : ℚ × ℚ) (ys : String)
    (yr : ℚ × ℚ) (zs : String) (zr : ℚ × ℚ) (e : SymExpr) :
    (ParamSpace3D.mkDefault xs xr ys yr zs zr).fixed_param = none ∧
    (∀ ps : ParamSpace3D, ps.fixed_param = none →
      get_numpy_func e ps = Except.error PyErr.ValueError) ∧
    (∀ (ps : ParamSpace3D) (fp : List (String × Cx)), ps.fixed_param = some fp →
      (get_numpy_func e ps).isOk = true) := by
  refine ⟨rfl, ?_, ?_⟩
  · intro ps h
    simp only [get_numpy_func, h]
  · intro ps fp h
    simp only [get_numpy_func, h, Except.isOk, Except.toBool]

/-- Witness for C10: the axis-only expression `a` still fails against the
default space, and succeeds once an empty mapping is passed. -/
theorem fixed_param_default_none_witness :
    (ParamSpace3D.mkDefault "a" (0, 1) "b" (0, 2) "c" (5, 7)).fixed_param = none ∧
    get_numpy_func (SymExpr.var "a")
      (ParamSpace3D.mkDefault "a" (0, 1) "b" (0, 2) "c" (5, 7)) =
      Except.error PyErr.ValueError ∧
    (get_numpy_func (SymExpr.var "a") wps).isOk = true :=
  ⟨(fixed_param_default_none "a" (0, 1) "b" (0, 2) "c" (5, 7)
      (SymExpr.var "a")).1,
   (fixed_param_default_none "a" (0, 1) "b" (0, 2) "c" (5, 7)
      (SymExpr.var "a")).2.1 _ rfl,
   (fixed_param_default_none "a" (0, 1) "b" (0, 2) "c" (5, 7)
      (SymExpr.var "a")).2.2 wps [] rfl⟩

/-- Reduction of monadic bind on Except used throughout the proofs. -/
@[simp] theorem exceptBind_ok {α β : Type} (a : α) (k : α → Except PyErr β) :
    (Except.ok a >>= k) = k a := rfl

@[simp] theorem exceptBind_error {α β : Type} (e : PyErr) (k : α → Except PyErr β) :
    ((Except.error e : Except PyErr α) >>= k) = Except.error e := rfl

/-- Evaluation only ever fails with `NameError`. -/
theorem evalExpr_ok_or_nameError (e : SymExpr) (env : String → Option Cx) :
    (∃ v, evalExpr e env = .ok v) ∨ evalExpr e env = .error .NameError := by
  induction e with
  | const c => exact .inl ⟨c, rfl⟩
  | var s =>
    cases h : env s with
    | some v => exact .inl ⟨v, by simp [evalExpr, h]⟩
    | none => exact .inr (by simp [evalExpr, h])
  | add a b iha ihb =>
    rcases iha with ⟨va, ha⟩ | ha
    · rcases ihb with ⟨vb, hb⟩ | hb
      · exact .inl ⟨Cx.add va vb, by simp [evalExpr, ha, hb]⟩
      · exact .inr (by simp [evalExpr, ha, hb])
    · exact .inr (by simp [evalExpr, ha])
  | mul a b iha ihb =>
    rcases iha with ⟨va, ha⟩ | ha
    · rcases ihb with ⟨vb, hb⟩ | hb
      · exact .inl ⟨Cx.mul va vb, by simp [evalExpr, ha, hb]⟩
      · exact .inr (by simp [evalExpr, ha, hb])
    · exact .inr (by simp [evalExpr, ha])
  | neg a iha =>
    rcases iha with ⟨va, ha⟩ | ha
    · exact .inl ⟨Cx.neg va, by simp [evalExpr, ha]⟩
    · exact .inr (by simp [evalExpr, ha])

/-- An expression holding any free symbol the environment does not bind
evaluates to `NameError` — the Python call raises when the generated
body reaches the unbound name. -/
theorem evalExpr_unbound (e : SymExpr) (env : String → Option Cx)
    (h : ∃ s ∈ e.freeSymbols, env s = none) :
    evalExpr e env = .error .NameError := by
  induction e with
  | const c => simp [SymExpr.freeSymbols] at h
  | var s =>
    obtain ⟨t, ht, hnone⟩ := h
    simp [SymExpr.freeSymbols] at ht
    subst ht
    simp [evalExpr, hnone]
  | add a b iha ihb =>
    obtain ⟨t, ht, hnone⟩ := h
    rcases List.mem_append.mp ht with h1 | h2
    · simp [evalExpr, iha ⟨t, h1, hnone⟩]
    · rcases evalExpr_ok_or_nameError a env with ⟨va, ha⟩ | ha
      · simp [evalExpr, ha, ihb ⟨t, h2, hnone⟩]
      · simp [evalExpr, ha]
  | mul a b iha ihb =>
    obtain ⟨t, ht, hnone⟩ := h
    rcases List.mem_append.mp ht with h1 | h2
    · simp [evalExpr, iha ⟨t, h1, hnone⟩]
    · rcases evalExpr_ok_or_nameError a env with ⟨va, ha⟩ | ha
      · simp [evalExpr, ha, ihb ⟨t, h2, hnone⟩]
      · simp [evalExpr, ha]
  | neg a iha =>
    obtain ⟨t, ht, hnone⟩ := h
    simp [evalExpr, iha ⟨t, ht, hnone⟩]

/-- A name outside the lambdify parameter list is unbound in the zipped
environment. -/
theorem lookup_zip_none {s : String} (lp : List String) (args : List Cx)
    (h : s ∉ lp) : List.lookup s (lp.zip args) = none := by
  induction lp generalizing args with
  | nil => simp
  | cons a tl ih =>
    cases args with
    | nil => simp
    | cons v vs =>
      have hsa : (s == a) = false := by
        have : s ≠ a := fun hh => h (hh ▸ List.mem_cons_self a tl)
        simpa using this
      simp only [List.zip_cons_cons, List.lookup, hsa]
      exact ih vs (fun hmem => h (List.mem_cons_of_mem a hmem))

/-- Two environments agreeing on every free symbol evaluate alike. -/
theorem evalExpr_env_congr (e : SymExpr) (env1 env2 : String → Option Cx)
    (h : ∀ s ∈ e.freeSymbols, env1 s = env2 s) :
    evalExpr e env1 = evalExpr e env2 := by
  induction e with
  | const c => rfl
  | var s => simp [evalExpr, h s (by simp [SymExpr.freeSymbols])]
  | add a b iha ihb =>
    have ha := iha (fun s hs => h s (List.mem_append.mpr (.inl hs)))
    have hb := ihb (fun s hs => h s (List.mem_append.mpr (.inr hs)))
    simp [evalExpr, ha, hb]
  | mul a b iha ihb =>
    have ha := iha (fun s hs => h s (List.mem_append.mpr (.inl hs)))
    have hb := ihb (fun s hs => h s (List.mem_append.mpr (.inr hs)))
    simp [evalExpr, ha, hb]
  | neg a iha =>
    simp [evalExpr, iha (fun s hs => h s hs)]

/-- Substitution never introduces free symbols. -/
theorem subst_free_subset (e : SymExpr) (k : String) (c : Cx) {s : String}
    (h : s ∈ (e.subst k c).freeSymbols) : s ∈ e.freeSymbols := by
  induction e with
  | const q => simp [SymExpr.subst, SymExpr.freeSymbols] at h
  | var t =>
    by_cases htk : t = k
    · simp [SymExpr.subst, htk, SymExpr.freeSymbols] at h
    · simpa [SymExpr.subst, htk, SymExpr.freeSymbols] using h
  | add a b iha ihb =>
    rcases List.mem_append.mp h with h1 | h2
    · exact List.mem_append.mpr (.inl (iha h1))
    · exact List.mem_append.mpr (.inr (ihb h2))
  | mul a b iha ihb =>
    rcases List.mem_append.mp h with h1 | h2
    · exact List.mem_append.mpr (.inl (iha h1))
    · exact List.mem_append.mpr (.inr (ihb h2))
  | neg a iha => exact iha h

/-- Substituting a constant for `k` eliminates `k` from the free symbols. -/
theorem subst_no_free (e : SymExpr) (k : String) (c : Cx) :
    k ∉ (e.subst k c).freeSymbols := by
  induction e with
  | const q => simp [SymExpr.subst, SymExpr.freeSymbols]
  | var t =>
    by_cases htk : t = k
    · simp [SymExpr.subst, htk, SymExpr.freeSymbols]
    · simp [SymExpr.subst, htk, SymExpr.freeSymbols]
      exact fun hh => htk hh.symm
  | add a b iha ihb =>
    intro hmem
    rcases List.mem_append.mp hmem with h1 | h2
    · exact iha h1
    · exact ihb h2
  | mul a b iha ihb =>
    intro hmem
    rcases List.mem_append.mp hmem with h1 | h2
    · exact iha h1
    · exact ihb h2
  | neg a iha => exact iha

/-- A symbol already absent stays absent along a substitution chain. -/
theorem subsList_preserves_absent (l : List (String × Cx)) (e : SymExpr)
    (s : String) (h : s ∉ e.freeSymbols) : s ∉ (e.subsList l).freeSymbols := by
  induction l generalizing e with
  | nil => exact h
  | cons kv tl ih =>
    rw [SymExpr.subsList, List.foldl_cons]
    exact ih _ (fun hmem => h (subst_free_subset e kv.1 kv.2 hmem))

/-- A symbol bound in the fixed-parameter mapping is eliminated by
`expr.subs(mapping)`. -/
theorem subsList_removes (fp : List (String × Cx)) (e : SymExpr) (k : String)
    (v : Cx) (h : (k, v) ∈ fp) : k ∉ (e.subsList fp).freeSymbols := by
  induction fp generalizing e with
  | nil => simp at h
  | cons kv tl ih =>
    rw [SymExpr.subsList, List.foldl_cons]
    rcases List.mem_cons.mp h with h1 | h2
    · subst h1
      exact subsList_preserves_absent tl _ k (subst_no_free e k v)
    · exact ih _ h2

/-- The keys the parameter loop keeps: every entry not among the two
axis symbols, in order. -/
def stepSpecL (px py : String) : List String → List String
  | [] => []
  | k :: l => if k = px ∨ k = py then stepSpecL px py l else k :: stepSpecL px py l

/-- The fixed values the parameter loop collects, one lookup per kept
key. -/
def stepSpecV (px py : String) (fp : List (String × Cx)) : List String → List Cx
  | [] => []
  | k :: l =>
    if k = px ∨ k = py then stepSpecV px py fp l
    else (List.lookup k fp).getD ⟨0, 0⟩ :: stepSpecV px py fp l

theorem lookup_mem_keys {k : String} {fp : List (String × Cx)}
    (h : k ∈ fp.map (fun kv => kv.1)) : ∃ v, List.lookup k fp = some v := by
  induction fp with
  | nil => simp at h
  | cons kv tl ih =>
    by_cases hk : k = kv.1
    · exact ⟨kv.2, by simp [List.lookup, hk]⟩
    · have hmem : k ∈ tl.map (fun kv => kv.1) := by
        rw [List.map_cons] at h
        rcases List.mem_cons.mp h with h1 | h1
        · exact absurd h1 hk
        · exact h1
      obtain ⟨v, hv⟩ := ih hmem
      refine ⟨v, ?_⟩
      have hbeq : (k == kv.1) = false := beq_eq_false_iff_ne.mpr hk
      simp [List.lookup, hbeq, hv]

theorem stepSpecL_mem {px py : String} {l : List String} {s : String}
    (h : s ∈ stepSpecL px py l) : s ∈ l := by
  induction l with
  | nil => simp [stepSpecL] at h
  | cons k l ih =>
    rw [stepSpecL] at h
    by_cases hk : k = px ∨ k = py
    · rw [if_pos hk] at h
      exact List.mem_cons_of_mem _ (ih h)
    · rw [if_neg hk] at h
      rcases List.mem_cons.mp h with h1 | h1
      · exact h1 ▸ List.mem_cons_self _ _
      · exact List.mem_cons_of_mem _ (ih h1)

/-- The parameter loop over keys drawn from the mapping never raises:
its dead `ValueError` branch is unreachable, and it returns the filtered
keys and their values. -/
theorem build_fold_ok (px py : String) (fp : List (String × Cx))
    (l : List String)
    (hl : ∀ k ∈ l, k = px ∨ k = py ∨ k ∈ fp.map (fun kv => kv.1))
    (acc : List String × List Cx) :
    l.foldlM (bp_step px py fp) acc =
      Except.ok (acc.1 ++ stepSpecL px py l, acc.2 ++ stepSpecV px py fp l) := by
  induction l generalizing acc with
  | nil =>
    simp only [List.foldlM_nil, stepSpecL, stepSpecV, List.append_nil]
    rfl
  | cons k l ih =>
    rw [List.foldlM_cons]
    by_cases hk : k = px ∨ k = py
    · rw [show bp_step px py fp acc k = Except.ok acc from by
        simp [bp_step, if_pos hk]]
      rw [exceptBind_ok, ih (fun k2 h2 => hl k2 (List.mem_cons_of_mem _ h2)) acc,
        stepSpecL, stepSpecV, if_pos hk, if_pos hk]
    · have hmem : k ∈ fp.map (fun kv => kv.1) := by
        rcases hl k (List.mem_cons_self _ _) with h | h | h
        · exact absurd (Or.inl h) hk
        · exact absurd (Or.inr h) hk
        · exact h
      obtain ⟨v, hv⟩ := lookup_mem_keys hmem
      rw [show bp_step px py fp acc k = Except.ok (acc.1 ++ [k], acc.2 ++ [v]) from by
        simp [bp_step, if_neg hk, hv]]
      rw [exceptBind_ok, ih (fun k2 h2 => hl k2 (List.mem_cons_of_mem _ h2)) _,
        stepSpecL, stepSpecV, if_neg hk, if_neg hk, hv]
      simp

/-- `build_params` always succeeds: `lambda_params` is the two axis
symbols followed by the non-axis keys, `fixed_values` their values. -/
theorem build_params_eq (px py : String) (fp : List (String × Cx)) :
    build_params px py fp = Except.ok
      ([px, py] ++ stepSpecL px py (fp.map (fun kv => kv.1)),
       stepSpecV px py fp (fp.map (fun kv => kv.1))) := by
  rw [build_params]
  show (px :: py :: fp.map (fun kv => kv.1)).foldlM
    (bp_step px py fp) ([px, py], []) = _
  rw [List.foldlM_cons,
    show bp_step px py fp ([px, py], []) px = Except.ok ([px, py], []) from by
      simp [bp_step],
    exceptBind_ok, List.foldlM_cons,
    show bp_step px py fp ([px, py], []) py = Except.ok ([px, py], []) from by
      simp [bp_step],
    exceptBind_ok,
    build_fold_ok px py fp _ (fun k hk => Or.inr (Or.inr hk)) ([px, py], [])]
  rfl

theorem np_linspace_length (a b : ℚ) (n : ℕ) : (np_linspace a b n).length = n := by
  rw [np_linspace]
  split_ifs with h0 h1
  · simp [h0]
  · simp [h1]
  · simp

theorem mapM_head_error {α β : Type} (f : α → Except PyErr β) (a : α)
    (l : List α) (e : PyErr) (h : f a = .error e) :
    (a :: l).mapM f = .error e := by
  rw [List.mapM_cons, h, exceptBind_error]

/-- With a stray symbol the sampling stage is where the planar extractor
dies: the parameter loop and lambdify both succeed, the grid is built,
and the first grid-point evaluation raises `NameError`. -/
theorem plot_sample_unresolved (func : SymExpr) (px py : String)
    (xr yr : ℚ × ℚ) (fp : List (String × Cx)) (res : ℕ) (hres : 1 ≤ res)
    (s : String) (hs : s ∈ func.freeSymbols)
    (hnot : s ∉ px :: py :: fp.map (fun kv => kv.1)) :
    plot_sample func px py xr yr fp res = Except.error PyErr.NameError := by
  have hnotlp : s ∉ [px, py] ++ stepSpecL px py (fp.map (fun kv => kv.1)) := by
    intro hmem
    rcases List.mem_append.mp hmem with h1 | h1
    · rcases List.mem_cons.mp h1 with h2 | h2
      · exact hnot (h2 ▸ List.mem_cons_self _ _)
      · exact hnot (by
          rcases List.mem_cons.mp h2 with h3 | h3
          · exact h3 ▸ List.mem_cons_of_mem _ (List.mem_cons_self _ _)
          · simp at h3)
    · exact hnot (List.mem_cons_of_mem _ (List.mem_cons_of_mem _ (stepSpecL_mem h1)))
  obtain ⟨n, rfl⟩ : ∃ n, res = n + 1 := ⟨res - 1, by omega⟩
  rw [plot_sample, build_params_eq, exceptBind_ok]
  simp only [np_linspace_length, List.range_succ_eq_map, List.mapM_cons]
  rw [show evalExpr func (fun t =>
      List.lookup t (([px, py] ++ stepSpecL px py (fp.map (fun kv => kv.1))).zip
        ([⟨(np_linspace xr.1 xr.2 (n + 1)).getD 0 0, 0⟩,
          ⟨(np_linspace yr.1 yr.2 (n + 1)).getD 0 0, 0⟩] ++
          stepSpecV px py fp (fp.map (fun kv => kv.1))))) =
      Except.error PyErr.NameError from
    evalExpr_unbound _ _ ⟨s, hs, lookup_zip_none _ _ hnotlp⟩]
  rw [exceptBind_error, exceptBind_error, exceptBind_error]

/-- C4 counterexample: the expression is the lone stray symbol `w`,
neither an axis of `wps` (axes a, b, c) nor a key of its (explicit,
empty) fixed-parameter mapping — yet the compiler returns a function
without raising anything, so no `UnresolvedSymbol` failure happens
before grid sampling. -/
theorem get_numpy_func_unresolved_ok :
    (get_numpy_func (SymExpr.var "w") wps).isOk = true := rfl

/-- C4 amended: no eager unresolved-symbol check exists.  The compiler
always succeeds when a fixed-parameter mapping is present, and the
stray symbol only surfaces as a `NameError` when the compiled function
is called; in the planar extractor the `NameError` is raised from the
first grid-point evaluation — after the parameter loop, lambdify and the
meshgrid construction have all completed — not before sampling. -/
theorem unresolved_symbol_fails_at_call :
    (∀ (e : SymExpr) (ps : ParamSpace3D) (fp : List (String × Cx)),
      ps.fixed_param = some fp →
      (∃ s ∈ (e.subsList fp).freeSymbols, s ∉ [ps.x, ps.y, ps.z]) →
      ∃ g, get_numpy_func e ps = Except.ok g ∧
        ∀ a b c : Cx, g a b c = Except.error PyErr.NameError) ∧
    (∀ (func : SymExpr) (px py : String) (xr yr : ℚ × ℚ)
      (fp : List (String × Cx)) (res : ℕ), 1 ≤ res →
      (∃ s ∈ func.freeSymbols, s ∉ px :: py :: fp.map (fun kv => kv.1)) →
      plot_zero_contours func px py xr yr fp res =
        Except.error PyErr.NameError) := by
  constructor
  · intro e ps fp hfp hstray
    refine ⟨fun a b c => evalExpr (e.subsList fp)
        (fun s => List.lookup s ([ps.x, ps.y, ps.z].zip [a, b, c])),
      by simp only [get_numpy_func, hfp], ?_⟩
    intro a b c
    obtain ⟨s, hs, hnot⟩ := hstray
    exact evalExpr_unbound _ _ ⟨s, hs, lookup_zip_none _ _ hnot⟩
  · intro func px py xr yr fp res hres hstray
    obtain ⟨s, hs, hnot⟩ := hstray
    rw [plot_zero_contours,
      plot_sample_unresolved func px py xr yr fp res hres s hs hnot,
      exceptBind_error]

/-- Witness for C4's amended claim: the stray symbol `w` over axes u, v
with an empty fixed-parameter mapping makes the planar extractor raise
`NameError` during sampling. -/
theorem unresolved_symbol_fails_at_call_witness :
    plot_zero_contours (SymExpr.var "w") "u" "v" (0, 1) (0, 1) [] 2 =
      Except.error PyErr.NameError :=
  unresolved_symbol_fails_at_call.2 (SymExpr.var "w") "u" "v" (0, 1) (0, 1) [] 2
    (by decide) ⟨"w", by simp [SymExpr.freeSymbols], by decide⟩

/-- A parameter space whose axis symbol `a` is also a fixed parameter. -/
def wpsConf : ParamSpace3D :=
  { x := "a", x_range := (0, 1), y := "b", y_range := (0, 2),
    z := "c", z_range := (5, 7), x_resolution := 2, y_resolution := 2,
    z_resolution := 2, fixed_param := some [("a", ⟨5, 0⟩)] }

/-- C5 counterexample: the symbol `a` is declared both as the x axis and
as a fixed parameter of `wpsConf`, yet compilation returns a function —
there is no `ConflictingParameter` failure. -/
theorem get_numpy_func_conflicting_ok :
    (get_numpy_func (SymExpr.var "a") wpsConf).isOk = true := rfl

/-- The parameter-loop body ignores the value attached to an axis key. -/
theorem bp_step_head_irrel (px py : String) (v v2 : Cx)
    (fp : List (String × Cx)) :
    bp_step px py ((px, v) :: fp) = bp_step px py ((px, v2) :: fp) := by
  funext acc param
  by_cases hax : param = px ∨ param = py
  · rw [bp_step, bp_step, if_pos hax, if_pos hax]
  · have hne : (param == px) = false :=
      beq_eq_false_iff_ne.mpr (fun h => hax (Or.inl h))
    rw [bp_step, bp_step, if_neg hax, if_neg hax]
    simp only [List.lookup, hne]

theorem build_params_head_irrel (px py : String) (v v2 : Cx)
    (fp : List (String × Cx)) :
    build_params px py ((px, v) :: fp) = build_params px py ((px, v2) :: fp) := by
  rw [build_params, build_params]
  simp only [List.map_cons]
  rw [bp_step_head_irrel px py v v2 fp]

theorem plot_sample_head_irrel (func : SymExpr) (px py : String)
    (xr yr : ℚ × ℚ) (v v2 : Cx) (fp : List (String × Cx)) (res : ℕ) :
    plot_sample func px py xr yr ((px, v) :: fp) res =
      plot_sample func px py xr yr ((px, v2) :: fp) res := by
  rw [plot_sample, plot_sample, build_params_head_irrel px py v v2 fp]

/-- C5 amended: a symbol declared both as an axis and as a fixed
parameter raises nothing.  The compiler proceeds and the fixed value
wins: `expr.subs` eliminates the axis symbol first, so the compiled
function ignores that axis argument entirely.  The planar extractor also
proceeds but makes the opposite choice: its parameter loop skips axis
symbols, so the fixed value attached to the axis key is ignored and the
symbol sweeps as an axis. -/
theorem conflicting_param_behavior :
    (∀ (e : SymExpr) (ps : ParamSpace3D) (fp : List (String × Cx)) (v : Cx),
      ps.fixed_param = some fp → (ps.x, v) ∈ fp →
      ∃ g, get_numpy_func e ps = Except.ok g ∧
        ∀ a a2 b c : Cx, g a b c = g a2 b c) ∧
    (∀ (func : SymExpr) (px py : String) (xr yr : ℚ × ℚ) (v v2 : Cx)
      (fp : List (String × Cx)) (res : ℕ),
      plot_zero_contours func px py xr yr ((px, v) :: fp) res =
        plot_zero_contours func px py xr yr ((px, v2) :: fp) res) := by
  constructor
  · intro e ps fp v hfp hmem
    refine ⟨fun a b c => evalExpr (e.subsList fp)
        (fun s => List.lookup s ([ps.x, ps.y, ps.z].zip [a, b, c])),
      by simp only [get_numpy_func, hfp], ?_⟩
    intro a a2 b c
    apply evalExpr_env_congr
    intro s hsfree
    have hsx : s ≠ ps.x := fun h => subsList_removes fp e ps.x v hmem (h ▸ hsfree)
    have hbeq : (s == ps.x) = false := beq_eq_false_iff_ne.mpr hsx
    simp only [List.zip_cons_cons, List.lookup, hbeq]
  · intro func px py xr yr v v2 fp res
    rw [plot_zero_contours, plot_zero_contours,
      plot_sample_head_irrel func px py xr yr v v2 fp res]

/-- Witness for C5's amended claim: compiling `a` against `wpsConf`
yields a function insensitive to its first (axis `a`) argument, and the
planar extractor returns the same result whatever value the conflicting
key carries. -/
theorem conflicting_param_behavior_witness :
    (∃ g, get_numpy_func (SymExpr.var "a") wpsConf = Except.ok g ∧
      ∀ a a2 b c : Cx, g a b c = g a2 b c) ∧
    plot_zero_contours (SymExpr.var "a") "a" "b" (0, 1) (0, 2)
        [("a", ⟨5, 0⟩)] 2 =
      plot_zero_contours (SymExpr.var "a") "a" "b" (0, 1) (0, 2)
        [("a", ⟨7, 0⟩)] 2 :=
  ⟨conflicting_param_behavior.1 (SymExpr.var "a") wpsConf [("a", ⟨5, 0⟩)] ⟨5, 0⟩
      rfl (List.mem_singleton.mpr rfl),
   conflicting_param_behavior.2 (SymExpr.var "a") "a" "b" (0, 1) (0, 2)
      ⟨5, 0⟩ ⟨7, 0⟩ [] 2⟩

/-- Once sampling has produced `Z`, the extractor branches only on the
complex-dtype test. -/
theorem plot_zero_contours_branches (func : SymExpr) (px py : String)
    (xr yr : ℚ × ℚ) (fp : List (String × Cx)) (res : ℕ)
    (lp : List String) (fv : List Cx) (Z : List (List Cx))
    (hs : plot_sample func px py xr yr fp res = Except.ok (lp, fv, Z)) :
    plot_zero_contours func px py xr yr fp res =
      if np_iscomplexobj func fv
      then Except.ok { warnings := [cmplxWarning],
                       field := Z.map (fun row => row.map (fun v => ⟨v.re, 0⟩)) }
      else Except.ok { warnings := [], field := Z } := by
  rw [plot_zero_contours, hs]
  rfl

/-- C6: the planar extractor's complex-narrowing policy — when the
sampled field has complex dtype it emits exactly the diagnostic warning
and contours only the real part (neither failing nor staying silent),
and when the field is real-dtype it emits no warning and contours the
field unchanged. -/
theorem plot_complex_narrowing_policy (func : SymExpr) (px py : String)
    (xr yr : ℚ × ℚ) (fp : List (String × Cx)) (res : ℕ)
    (lp : List String) (fv : List Cx) (Z : List (List Cx))
    (hs : plot_sample func px py xr yr fp res = Except.ok (lp, fv, Z)) :
    (np_iscomplexobj func fv = true →
      plot_zero_contours func px py xr yr fp res =
        Except.ok { warnings := [cmplxWarning],
                    field := Z.map (fun row => row.map (fun v => ⟨v.re, 0⟩)) }) ∧
    (np_iscomplexobj func fv = false →
      plot_zero_contours func px py xr yr fp res =
        Except.ok { warnings := [], field := Z }) := by
  rw [plot_zero_contours_branches func px py xr yr fp res lp fv Z hs]
  constructor <;> intro h <;> simp [h]

/-- A complex-constant expression for the C6 witness: `u + i`. -/
def wfC : SymExpr := SymExpr.add (SymExpr.var "u") (SymExpr.const ⟨0, 1⟩)

/-- A real expression for the C6 witness: `u + v`. -/
def wfR : SymExpr := SymExpr.add (SymExpr.var "u") (SymExpr.var "v")

/-- Witness for C6, both branches: the complex-dtype field produces the
single diagnostic and the real-narrowed field; the real-dtype field
produces no warning and the unchanged field. -/
theorem plot_complex_narrowing_policy_witness :
    (∃ lp fv Z, plot_sample wfC "u" "v" (0, 1) (0, 1) [] 2 =
        Except.ok (lp, fv, Z) ∧
      plot_zero_contours wfC "u" "v" (0, 1) (0, 1) [] 2 =
        Except.ok { warnings := [cmplxWarning],
                    field := Z.map (fun row => row.map (fun v => ⟨v.re, 0⟩)) }) ∧
    (∃ lp fv Z, plot_sample wfR "u" "v" (0, 1) (0, 1) [] 2 =
        Except.ok (lp, fv, Z) ∧
      plot_zero_contours wfR "u" "v" (0, 1) (0, 1) [] 2 =
        Except.ok { warnings := [], field := Z }) :=
  ⟨⟨_, _, _, rfl,
    (plot_complex_narrowing_policy wfC "u" "v" (0, 1) (0, 1) [] 2 _ _ _ rfl).1
      rfl⟩,
   ⟨_, _, _, rfl,
    (plot_complex_narrowing_policy wfR "u" "v" (0, 1) (0, 1) [] 2 _ _ _ rfl).2
      rfl⟩⟩
